import Mathlib

/-!
Verification of the CineFinder crawler/extraction pipeline
(`cinefinder_scraper/spiders/senscritique_spider.py`).

The Python source is shallowly embedded: pure helper functions become Lean
functions on `List Char` / `String`; JSON values (the result of `json.loads`)
become the inductive `Json`; the spider's mutable crawl state becomes the
explicit `CrawlState` record threaded through `parse_list_page`; Python
`None` for string-typed values is `Option`. Regular-expression matches are
embedded as the deterministic character-list parsers the anchored patterns
denote. Python floats are modelled as rationals (all numeric literals the
spec exercises are exactly representable).
-/

namespace CineFinder

/-! ## Python character and string primitives -/

/-- The ASCII whitespace characters recognised by Python `str.strip` and
`str.split` (and by the `\s` class in the source's regexes, for the ASCII
range that actually occurs in titles): space, tab, newline, carriage
return, vertical tab, form feed. -/
def pyIsWs (c : Char) : Bool :=
  c.toNat = 32 || c.toNat = 9 || c.toNat = 10 || c.toNat = 13 ||
    c.toNat = 11 || c.toNat = 12

/-- Decimal-digit test (the regex class `\d` over ASCII). -/
def isDigitC (c : Char) : Bool :=
  48 ≤ c.toNat && c.toNat ≤ 57

/-- Numeric value of a decimal digit character. -/
def digitVal (c : Char) : Nat := c.toNat - 48

/-- Value of a digit run, most significant first. -/
def digitsVal (cs : List Char) : Nat :=
  cs.foldl (fun a c => a * 10 + digitVal c) 0

/-- Python `str.strip` on a character list: drop leading and trailing
whitespace. -/
def pyStripL (cs : List Char) : List Char :=
  ((cs.dropWhile pyIsWs).reverse.dropWhile pyIsWs).reverse

/-- Python `str.strip` on a string. -/
def pyStrip (s : String) : String := ⟨pyStripL s.data⟩

/-- Python `str.split()` (no argument): split on whitespace runs, dropping
empty pieces. The accumulator holds the current word reversed. -/
def splitWsGo : List Char → List Char → List (List Char)
  | [], acc => if acc = [] then [] else [acc.reverse]
  | c :: cs, acc =>
    if pyIsWs c then
      if acc = [] then splitWsGo cs [] else acc.reverse :: splitWsGo cs []
    else
      splitWsGo cs (c :: acc)

def splitWs (cs : List Char) : List (List Char) := splitWsGo cs []

/-- Python `" ".join(words)`. -/
def joinSpace : List (List Char) → List Char
  | [] => []
  | [w] => w
  | w :: ws => w ++ ' ' :: joinSpace ws

/-- `" ".join(text.split())`: collapse every whitespace run to a single
space and trim the ends. -/
def collapseWs (cs : List Char) : List Char := joinSpace (splitWs cs)

/-- ASCII lowercase, extended with the one non-ASCII letter the source's
case-insensitive regexes can meet (`É` in `Série`). Models Python
`re.IGNORECASE` folding on the alphabet in use. -/
def lowerC (c : Char) : Char :=
  if c = 'É' then 'é'
  else if 65 ≤ c.toNat ∧ c.toNat ≤ 90 then Char.ofNat (c.toNat + 32)
  else c

def lowerL (cs : List Char) : List Char := cs.map lowerC

/-! ## `iso8601_duration_to_minutes` (source lines 9-21)

The source strips the input and matches it against the anchored regex
`^PT(?:(\d+)H)?(?:(\d+)M)?$`. Because a digit run can only be followed by
its marker letter (a digit is never `H`/`M`), the regex's backtracking
search is equivalent to the committed parser below: take the maximal digit
run; if it is non-empty and the next character is the marker, consume both,
otherwise consume nothing. -/

/-- Maximal run of decimal digits at the front (regex `\d+`, greedy). -/
def takeDigits : List Char → List Char × List Char
  | [] => ([], [])
  | c :: cs =>
    if isDigitC c then
      let p := takeDigits cs
      (c :: p.1, p.2)
    else
      ([], c :: cs)

/-- `(?:(\d+)X)?` for a marker letter `X`: optionally a non-empty digit run
followed by `X`. Returns the group's value and the rest; consumes nothing
when the group does not participate. -/
def numGroup (mark : Char) (cs : List Char) : Option Nat × List Char :=
  let p := takeDigits cs
  match p.1, p.2 with
  | [], _ => (none, cs)
  | _, [] => (none, cs)
  | d, c :: rest => if c = mark then (some (digitsVal d), rest) else (none, cs)

/-- Body of the duration regex after the literal `PT`, anchored at the
end: hour group, minute group, then end of input; yields
`hours * 60 + minutes`. -/
def isoCore (cs : List Char) : Option Nat :=
  let h := numGroup 'H' cs
  let m := numGroup 'M' h.2
  if m.2 = [] then some ((h.1.getD 0) * 60 + (m.1.getD 0)) else none

/-- The full anchored match `^PT(?:(\d+)H)?(?:(\d+)M)?$`. -/
def isoMatch : List Char → Option Nat
  | 'P' :: 'T' :: rest => isoCore rest
  | _ => none

/-! ## `clean_title_and_year` (source lines 31-49) -/

/-- One suffix-stripping substitution
`re.sub(r"\s*-\s*TAG\s*$", "", s, flags=re.IGNORECASE)`. Working from the
end of the string: optional whitespace, the tag (case-folded), optional
whitespace, a mandatory hyphen, optional whitespace; if that whole shape is
present at the end it is removed, otherwise the string is unchanged. -/
def stripSuffixTag (tag : List Char) (cs : List Char) : List Char :=
  let r := cs.reverse.dropWhile pyIsWs
  if lowerL (r.take tag.length) = (lowerL tag).reverse then
    match (r.drop tag.length).dropWhile pyIsWs with
    | '-' :: r2 => ((r2.dropWhile pyIsWs).reverse)
    | _ => cs
  else cs

/-- The three suffix substitutions of the source, in order:
`- SensCritique`, `- Film`, `- Série`. -/
def stripTitleTags (cs : List Char) : List Char :=
  stripSuffixTag "Série".data
    (stripSuffixTag "Film".data
      (stripSuffixTag "SensCritique".data cs))

/-- `re.search(r"\((\d{4})\)\s*$", s)` together with the matching
`re.sub(r"\s*\(\d{4}\)\s*$", "", s).strip()`: if the string ends in a
parenthesised run of exactly four digits (up to trailing whitespace),
return the year value and the string with that parenthetical and the
whitespace around it removed. -/
def yearAtEnd (cs : List Char) : Option (Nat × List Char) :=
  match cs.reverse.dropWhile pyIsWs with
  | ')' :: d1 :: d2 :: d3 :: d4 :: '(' :: r2 =>
    if isDigitC d1 && isDigitC d2 && isDigitC d3 && isDigitC d4 then
      some (((digitVal d4 * 10 + digitVal d3) * 10 + digitVal d2) * 10 + digitVal d1,
            pyStripL (r2.dropWhile pyIsWs).reverse)
    else none
  | _ => none

/-- The truthy-input body of `clean_title_and_year`: collapse whitespace,
strip the known trailing decorations, and split off a trailing
parenthesised four-digit year when present. -/
def cleanCore (txt : String) : Option String × Option Nat :=
  match yearAtEnd (stripTitleTags (pyStripL (collapseWs txt.data))) with
  | some (y, t) => (some ⟨t⟩, some y)
  | none => (some ⟨stripTitleTags (pyStripL (collapseWs txt.data))⟩, none)

/-- `clean_title_and_year(text)`: `(None, None)` for a falsy input
(Python `None` or the empty string); otherwise the cleaning body above. -/
def clean_title_and_year : Option String → Option String × Option Nat
  | none => (none, none)
  | some txt => if txt = "" then (none, none) else cleanCore txt

/-! ## JSON values

A parsed `json.loads` payload. `Json.null` doubles as Python `None` (which
is exactly what `json.loads` produces for JSON `null`, and what `dict.get`
returns for a missing key). -/

/-- A Python number (int or float) as an exact decimal:
`mant / 10 ^ scale`. Every numeric literal the source's data can carry in
the claims' scope is a decimal literal, which this represents exactly; an
integer has `scale = 0`. Kept un-normalised so that all arithmetic is
kernel-computable. -/
structure PyFloat where
  mant : Int
  scale : Nat
deriving DecidableEq

/-- The rational value of a decimal number (used in statements only). -/
def PyFloat.toRat (q : PyFloat) : ℚ := (q.mant : ℚ) / 10 ^ q.scale

mutual
inductive Json where
  | null : Json
  | bool : Bool → Json
  | num : PyFloat → Json
  | str : String → Json
  | arr : JsonArr → Json
  | obj : JsonObj → Json

inductive JsonArr where
  | nil : JsonArr
  | cons : Json → JsonArr → JsonArr

inductive JsonObj where
  | nil : JsonObj
  | cons : String → Json → JsonObj → JsonObj
end

/-- The elements of a JSON array, in order. -/
def JsonArr.toList : JsonArr → List Json
  | .nil => []
  | .cons x xs => x :: xs.toList

/-- Build a JSON array from a list (notation helper for concrete values). -/
def Json.arrOf (l : List Json) : Json :=
  .arr (l.foldr JsonArr.cons .nil)

/-- Build a JSON object from key/value pairs (notation helper for concrete
values). -/
def Json.objOf (l : List (String × Json)) : Json :=
  .obj (l.foldr (fun kv t => JsonObj.cons kv.1 kv.2 t) .nil)

/-- `d.get(k)` on a Python dict: the value of the first matching key (dict
keys are unique), `None` (`null`) when absent. -/
def JsonObj.get : JsonObj → String → Json
  | .nil, _ => .null
  | .cons k v tl, key => if k = key then v else tl.get key

/-- `d.get(k)` lifted to any JSON value; never reached on a non-dict in the
source (every call site is guarded by an `isinstance(_, dict)` check). -/
def jget : Json → String → Json
  | .obj kvs, k => kvs.get k
  | _, _ => .null

/-- Python truthiness of a parsed JSON value. -/
def pyTruthy : Json → Bool
  | .null => false
  | .bool b => b
  | .num q => q.mant != 0
  | .str s => s != ""
  | .arr .nil => false
  | .arr (.cons _ _) => true
  | .obj .nil => false
  | .obj (.cons _ _ _) => true

/-- `extract_year_from_date(date_str)` (source lines 52-57): the leading
four digits of the stripped string, via `re.match(r"^(\d{4})", ...)`;
`None` for a non-string or non-matching input. -/
def extract_year_from_date : Json → Option Nat
  | .str s =>
    if s = "" then none
    else
      match pyStripL s.data with
      | d1 :: d2 :: d3 :: d4 :: _ =>
        if isDigitC d1 && isDigitC d2 && isDigitC d3 && isDigitC d4 then
          some (((digitVal d1 * 10 + digitVal d2) * 10 + digitVal d3) * 10 + digitVal d4)
        else none
      | _ => none
  | _ => none

/-- `iso8601_duration_to_minutes(duration)`: `None` unless the argument is
a truthy string whose stripped form matches the duration regex with a
positive total. -/
def iso8601_duration_to_minutes : Json → Option Nat
  | .str s =>
    if s = "" then none
    else
      match isoMatch (pyStripL s.data) with
      | some total => if 0 < total then some total else none
      | none => none
  | _ => none

/-! ## `iter_jsonld_objects` (source lines 60-69)

A list recurses into its elements; a dict containing an `@graph` key
recurses into that value, any other dict is yielded; scalars yield
nothing. `iterGraph` carries the whole dict alongside the scan for the
`@graph` key (Python `"@graph" in data` followed by `data.get("@graph")`;
dict keys are unique). -/

mutual
def iter_jsonld_objects : Json → List Json
  | .arr xs => iterArr xs
  | .obj kvs => iterGraph kvs kvs
  | _ => []

def iterArr : JsonArr → List Json
  | .nil => []
  | .cons x xs => iter_jsonld_objects x ++ iterArr xs

def iterGraph : JsonObj → JsonObj → List Json
  | orig, .nil => [Json.obj orig]
  | orig, .cons k v tl =>
    if k = "@graph" then iter_jsonld_objects v else iterGraph orig tl
end

/-- `as_list(x)` (source lines 24-28). -/
def as_list : Json → List Json
  | .null => []
  | .arr xs => xs.toList
  | x => [x]

/-! ## Python coercions that can raise

`float(...)` and `int(...)` are the two expressions of `parse_film` that can
raise on malformed data; they are embedded in `Except`, and the source's
`try/except` blocks become `pyTry`. Decimal literals without an exponent are
parsed exactly into `PyFloat`; other textual float forms are treated as
failures. -/

def pyTry (e : Except Unit α) (fallback : α) : α :=
  match e with
  | .ok a => a
  | .error _ => fallback

/-- Decimal number text: optional sign, digits, optional point and digits,
with at least one digit overall. -/
def parseDecCore (cs : List Char) : Except Unit PyFloat :=
  let sp : Int × List Char :=
    match cs with
    | '-' :: t => (-1, t)
    | '+' :: t => (1, t)
    | _ => (1, cs)
  let ip := takeDigits sp.2
  match ip.2 with
  | [] =>
    if ip.1 = [] then .error ()
    else .ok ⟨sp.1 * digitsVal ip.1, 0⟩
  | '.' :: t2 =>
    let fp := takeDigits t2
    if fp.2 = [] && !(ip.1 = [] && fp.1 = []) then
      .ok ⟨sp.1 * (digitsVal ip.1 * 10 ^ fp.1.length + digitsVal fp.1), fp.1.length⟩
    else .error ()
  | _ => .error ()

/-- Integer text: optional sign, then digits only. -/
def parseIntCore (cs : List Char) : Except Unit Int :=
  let sp : Int × List Char :=
    match cs with
    | '-' :: t => (-1, t)
    | '+' :: t => (1, t)
    | _ => (1, cs)
  let ip := takeDigits sp.2
  if ip.1 = [] then .error ()
  else if ip.2 = [] then .ok (sp.1 * digitsVal ip.1)
  else .error ()

/-- Python `float(x)` on a parsed JSON value. -/
def pyFloat : Json → Except Unit PyFloat
  | .num q => .ok q
  | .bool b => .ok ⟨if b then 1 else 0, 0⟩
  | .str s => parseDecCore (pyStripL s.data)
  | _ => .error ()

/-- Python `int(x)` on a parsed JSON value (truncation toward zero for a
float argument; digit text only for a string argument). -/
def pyInt : Json → Except Unit Int
  | .num q => .ok (Int.tdiv q.mant (10 ^ q.scale))
  | .bool b => .ok (if b then 1 else 0)
  | .str s => parseIntCore (pyStripL s.data)
  | _ => .error ()

/-!
Python `repr` of a parsed JSON value (non-integer numbers are rendered in
mantissa/scale form, an approximation of the float repr that no claim
exercises). -/

mutual
def pyRepr : Json → String
  | .null => "None"
  | .bool b => if b then "True" else "False"
  | .num q =>
    if q.scale = 0 then toString q.mant
    else toString q.mant ++ "e-" ++ toString q.scale
  | .str s => "\x27" ++ s ++ "\x27"
  | .arr xs => "[" ++ pyReprArr xs ++ "]"
  | .obj kvs => "\x7b" ++ pyReprObj kvs ++ "\x7d"

def pyReprArr : JsonArr → String
  | .nil => ""
  | .cons x .nil => pyRepr x
  | .cons x xs => pyRepr x ++ ", " ++ pyReprArr xs

def pyReprObj : JsonObj → String
  | .nil => ""
  | .cons k v .nil => "\x27" ++ k ++ "\x27: " ++ pyRepr v
  | .cons k v kvs => "\x27" ++ k ++ "\x27: " ++ pyRepr v ++ ", " ++ pyReprObj kvs
end

/-- Python `str(x)` on a parsed JSON value. -/
def pyStr : Json → String
  | .str s => s
  | j => pyRepr j

/-! ## `parse_film` (source lines 245-357) -/

/-- The emitted item dictionary. A field the source never wrote holds its
default (`none`, `null` or `[]`); the source never distinguishes a missing
key from a key set to `None`/an empty list. -/
structure Item where
  url : String
  title : Option String := none
  full_title : Option String := none
  year : Option Nat := none
  poster_url : Json := .null
  description : Json := .null
  genres : List String := []
  duration_min : Option Nat := none
  directors : List String := []
  actors : List String := []
  rating : Option PyFloat := none
  rating_count : Option Int := none

/-- `x in ("Movie", "Film")`. -/
def isMovieStr (s : String) : Bool := s == "Movie" || s == "Film"

/-- The `@type` test of the source: a list matches when any element is
`"Movie"`/`"Film"`, a scalar when it is itself one of the two. -/
def typeIsMovie : Json → Bool
  | .arr xs =>
    xs.toList.any fun x =>
      match x with
      | .str s => isMovieStr s
      | _ => false
  | .str s => isMovieStr s
  | _ => false

/-- The inner loop over `iter_jsonld_objects(data)`: first dict whose
`@type` matches. -/
def firstMovieInList (objs : List Json) : Option Json :=
  objs.find? fun o =>
    match o with
    | .obj kvs => typeIsMovie (jget (.obj kvs) "@type")
    | _ => false

/-- The outer loop over the structured-data blocks: `none` stands for a
block that was empty after stripping or failed `json.loads` (the source's
`continue` cases); the first matching movie object across blocks wins. -/
def findMovie : List (Option Json) → Option Json
  | [] => none
  | none :: rest => findMovie rest
  | some data :: rest =>
    match firstMovieInList (iter_jsonld_objects data) with
    | some m => some m
    | none => findMovie rest

/-- One entry of the `director`/`actor` loops: a dict with a truthy `name`
contributes `str(d["name"]).strip()`, a plain string contributes itself
stripped, anything else is dropped. -/
def personName : Json → Option String
  | .obj kvs =>
    if pyTruthy (jget (.obj kvs) "name") then
      some (pyStrip (pyStr (jget (.obj kvs) "name")))
    else none
  | .str s => some (pyStrip s)
  | _ => none

/-- The JSON-LD field mapping of `parse_film` (source lines 281-337),
applied when a movie object was found. -/
def extractFromMovie (movie : Json) (it : Item) : Item :=
  let it :=
    match jget movie "name" with
    | .str s =>
      if pyStrip s = "" then it
      else
        let p := clean_title_and_year (some s)
        { it with
          title := p.1
          full_title := some (pyStrip s)
          year := match p.2 with | some y => some y | none => it.year }
    | _ => it
  let it :=
    match extract_year_from_date (jget movie "datePublished") with
    | some y => { it with year := some y }
    | none => it
  let img := jget movie "image"
  let img := match img with | .obj kvs => jget (.obj kvs) "url" | x => x
  let img := match img with | .arr (.cons x _) => x | x => x
  let it := { it with poster_url := img }
  let it := { it with description := jget movie "description" }
  let it :=
    { it with
      genres :=
        (as_list (jget movie "genre")).filterMap fun g =>
          match g with
          | Json.str s => if pyStrip s = "" then none else some (pyStrip s)
          | _ => none }
  let it := { it with duration_min := iso8601_duration_to_minutes (jget movie "duration") }
  let it :=
    { it with
      directors :=
        ((as_list (jget movie "director")).filterMap personName).filter
          fun x => x != "" }
  let it :=
    { it with
      actors :=
        ((as_list (jget movie "actor")).filterMap personName).filter
          fun x => x != "" }
  let rating :=
    if pyTruthy (jget movie "aggregateRating") then jget movie "aggregateRating"
    else .obj .nil
  match rating with
  | .obj kvs =>
    let rv := jget (.obj kvs) "ratingValue"
    let rc := jget (.obj kvs) "ratingCount"
    let it :=
      { it with
        rating :=
          pyTry (match rv with | .null => .ok none | v => (pyFloat v).map some) none }
    { it with
      rating_count :=
        pyTry (match rc with | .null => .ok none | v => (pyInt v).map some) none }
  | _ => it

/-- `not item.get("title")`: title key missing or empty. -/
def titleFalsy : Option String → Bool
  | none => true
  | some s => s == ""

/-- One candidate text of the title/year fallback loop (source lines
344-351). -/
def fallbackStep (it : Item) (txt : Option String) : Item :=
  match txt with
  | none => it
  | some t =>
    if t = "" then it
    else
      let p := clean_title_and_year (some t)
      let it :=
        if titleFalsy it.title &&
            (match p.1 with | some c => c != "" | none => false) then
          { it with title := p.1 }
        else it
      if it.year.isNone && p.2.isSome then { it with year := p.2 } else it

/-- `parse_film(response)`: build the item from the first structured-data
movie object, then run the `og:title`/`<title>` fallback and the
`og:image` poster fallback. `blocks` are the parse results of the page's
structured-data scripts, `seedUrl` the url seeded into `response.meta` at
scheduling time, and the three `Option String` arguments are the page's
`og:title`, `<title>` text and `og:image` (absent when the selector finds
nothing). -/
def parse_film (blocks : List (Option Json)) (seedUrl responseUrl : String)
    (ogTitle pageTitle ogImage : Option String) : Item :=
  let it : Item := { url := seedUrl }
  let it := { it with url := responseUrl }
  let it :=
    match findMovie blocks with
    | some movie => extractFromMovie movie it
    | none => it
  let it :=
    if titleFalsy it.title || it.year.isNone then
      fallbackStep (fallbackStep it ogTitle) pageTitle
    else it
  if pyTruthy it.poster_url then it
  else
    { it with
      poster_url := match ogImage with | some s => .str s | none => .null }

/-! ## Crawl controller: `parse_list_page` (source lines 156-243)

The spider's mutable attributes become `CrawlState`; the run configuration
read from the environment becomes `CrawlConfig`. A listing response is the
page's URL plus the two candidate-URL lists that the selector/regex
heuristics and `response.urljoin` produce from its HTML (the normalised
film links, and the pagination links). `random.shuffle` is an arbitrary
reordering function `sf`, applied exactly where the source shuffles. The
returned triple is the new state, the film fetches dispatched (in order)
and the listing fetches dispatched (in order). -/

/-- Comparison of two decimal numbers (`a < b` over their values). -/
def PyFloat.ltB (a b : PyFloat) : Bool :=
  a.mant * 10 ^ b.scale < b.mant * 10 ^ a.scale

/-- Python `int(...)` truncation toward zero of a decimal number. -/
def PyFloat.trunc (q : PyFloat) : Int := Int.tdiv q.mant (10 ^ q.scale)

structure CrawlConfig where
  max_items : Nat
  max_pages : Nat
  shuffle : Bool
  sample_rate : PyFloat
deriving DecidableEq

structure CrawlState where
  seen_list_pages : List String
  seen_film_urls : List String
  pages_crawled : Nat
  items_scheduled : Nat
deriving DecidableEq

/-- The state a run starts from (source lines 126-129). -/
def initState : CrawlState := ⟨[], [], 0, 0⟩

structure PageResponse where
  url : String
  filmCandidates : List String
  nextCandidates : List String

/-- Source lines 188-190: `if 0.0 < sample_rate < 1.0:` truncate to the
first `max(1, int(len(film_urls) * sample_rate))` entries. -/
def sampleTake (rate : PyFloat) (l : List String) : List String :=
  if PyFloat.ltB ⟨0, 0⟩ rate && PyFloat.ltB rate ⟨1, 0⟩ then
    l.take (max 1 (PyFloat.trunc ⟨(l.length : Int) * rate.mant, rate.scale⟩).toNat)
  else l

/-- The film-scheduling loop (source lines 192-203): stop at the item
budget, skip already-seen film URLs, otherwise mark seen, count, and
dispatch. -/
def scheduleFilms (cfg : CrawlConfig) : List String → CrawlState → CrawlState × List String
  | [], st => (st, [])
  | u :: rest, st =>
    if cfg.max_items ≤ st.items_scheduled then (st, [])
    else if u ∈ st.seen_film_urls then scheduleFilms cfg rest st
    else
      let p := scheduleFilms cfg rest
        { st with
          seen_film_urls := u :: st.seen_film_urls
          items_scheduled := st.items_scheduled + 1 }
      (p.1, u :: p.2)

/-- The pagination-dispatch loop (source lines 238-243), run over
`next_links[:8]`: break at the page budget, skip seen listing pages,
otherwise dispatch. Neither counter nor set changes inside the loop, so
the state is a plain parameter. -/
def dispatchNextLoop (cfg : CrawlConfig) (st : CrawlState) : List String → List String
  | [] => []
  | u :: rest =>
    if cfg.max_pages ≤ st.pages_crawled then []
    else if u ∈ st.seen_list_pages then dispatchNextLoop cfg st rest
    else u :: dispatchNextLoop cfg st rest

/-- One listing-page response (source lines 156-243): dedup guard, page
counting and page-budget gate, shuffle, sampling, film scheduling, then
the pagination gate and bounded next-page dispatch. -/
def parse_list_page (cfg : CrawlConfig) (sf : List String → List String)
    (resp : PageResponse) (st : CrawlState) :
    CrawlState × List String × List String :=
  if resp.url ∈ st.seen_list_pages then (st, [], [])
  else
    let st1 : CrawlState :=
      { st with
        seen_list_pages := resp.url :: st.seen_list_pages
        pages_crawled := st.pages_crawled + 1 }
    if cfg.max_pages < st1.pages_crawled then (st1, [], [])
    else
      let films :=
        sampleTake cfg.sample_rate
          (if cfg.shuffle then sf resp.filmCandidates else resp.filmCandidates)
      let p := scheduleFilms cfg films st1
      if cfg.max_pages ≤ p.1.pages_crawled then (p.1, p.2, [])
      else
        let nexts := if cfg.shuffle then sf resp.nextCandidates else resp.nextCandidates
        (p.1, p.2, dispatchNextLoop cfg p.1 (nexts.take 8))

/-- A whole run: the listing-page responses processed in arrival order,
threading the crawl state; returns the final state and all film fetches
dispatched, in dispatch order. -/
def processRun (cfg : CrawlConfig) (sf : List String → List String) :
    List PageResponse → CrawlState → CrawlState × List String
  | [], st => (st, [])
  | r :: rs, st =>
    let q := parse_list_page cfg sf r st
    let p := processRun cfg sf rs q.1
    (p.1, q.2.1 ++ p.2)

/-! ## Controller lemmas -/

theorem scheduleFilms_state (cfg : CrawlConfig) (l : List String) : ∀ st : CrawlState,
    (scheduleFilms cfg l st).1.seen_list_pages = st.seen_list_pages ∧
    (scheduleFilms cfg l st).1.pages_crawled = st.pages_crawled ∧
    st.items_scheduled ≤ (scheduleFilms cfg l st).1.items_scheduled ∧
    (st.items_scheduled ≤ cfg.max_items →
      (scheduleFilms cfg l st).1.items_scheduled ≤ cfg.max_items) := by
  induction l with
  | nil => intro st; simp [scheduleFilms]
  | cons u rest ih =>
    intro st
    by_cases h1 : cfg.max_items ≤ st.items_scheduled
    · simp [scheduleFilms, h1]
    · by_cases h2 : u ∈ st.seen_film_urls
      · simpa [scheduleFilms, h1, h2] using ih st
      · obtain ⟨e1, e2, e3, e4⟩ := ih
          { st with
            seen_film_urls := u :: st.seen_film_urls
            items_scheduled := st.items_scheduled + 1 }
        simp only [scheduleFilms, if_neg h1, if_neg h2]
        exact ⟨e1, e2, le_trans (Nat.le_succ _) e3,
          fun _ => e4 (Nat.succ_le_of_lt (Nat.not_le.mp h1))⟩

theorem scheduleFilms_films (cfg : CrawlConfig) (l : List String) : ∀ st : CrawlState,
    (∀ v, v ∈ st.seen_film_urls → v ∈ (scheduleFilms cfg l st).1.seen_film_urls) ∧
    (scheduleFilms cfg l st).2.Nodup ∧
    (∀ v, v ∈ (scheduleFilms cfg l st).2 → v ∉ st.seen_film_urls) ∧
    (∀ v, v ∈ (scheduleFilms cfg l st).2 →
      v ∈ (scheduleFilms cfg l st).1.seen_film_urls) := by
  induction l with
  | nil => intro st; simp [scheduleFilms]
  | cons u rest ih =>
    intro st
    by_cases h1 : cfg.max_items ≤ st.items_scheduled
    · simp [scheduleFilms, h1]
    · by_cases h2 : u ∈ st.seen_film_urls
      · simpa [scheduleFilms, h1, h2] using ih st
      · obtain ⟨isub, ind, ifr, imem⟩ := ih
          { st with
            seen_film_urls := u :: st.seen_film_urls
            items_scheduled := st.items_scheduled + 1 }
        simp only [scheduleFilms, if_neg h1, if_neg h2]
        refine ⟨?_, ?_, ?_, ?_⟩
        · intro v hv
          exact isub v (List.mem_cons_of_mem u hv)
        · refine List.nodup_cons.mpr ⟨?_, ind⟩
          intro hu
          exact ifr u hu (List.mem_cons_self u _)
        · intro v hv
          rcases List.mem_cons.mp hv with rfl | hv
          · exact h2
          · intro hst
            exact ifr v hv (List.mem_cons_of_mem u hst)
        · intro v hv
          rcases List.mem_cons.mp hv with rfl | hv
          · exact isub v (List.mem_cons_self v _)
          · exact imem v hv

theorem dispatchNextLoop_unseen (cfg : CrawlConfig) (st : CrawlState) :
    ∀ l : List String, ∀ u, u ∈ dispatchNextLoop cfg st l →
      u ∉ st.seen_list_pages := by
  intro l
  induction l with
  | nil => intro u hu; simp [dispatchNextLoop] at hu
  | cons v rest ih =>
    intro u hu
    by_cases h1 : cfg.max_pages ≤ st.pages_crawled
    · simp [dispatchNextLoop, h1] at hu
    · by_cases h2 : v ∈ st.seen_list_pages
      · exact ih u (by simpa [dispatchNextLoop, h1, h2] using hu)
      · simp only [dispatchNextLoop, if_neg h1, if_neg h2] at hu
        rcases List.mem_cons.mp hu with rfl | hu
        · exact h2
        · exact ih u hu

theorem dispatchNextLoop_length (cfg : CrawlConfig) (st : CrawlState) :
    ∀ l : List String, (dispatchNextLoop cfg st l).length ≤ l.length := by
  intro l
  induction l with
  | nil => simp [dispatchNextLoop]
  | cons v rest ih =>
    by_cases h1 : cfg.max_pages ≤ st.pages_crawled
    · simp [dispatchNextLoop, h1]
    · by_cases h2 : v ∈ st.seen_list_pages
      · simp only [dispatchNextLoop, if_neg h1, if_pos h2, List.length_cons]
        omega
      · simp only [dispatchNextLoop, if_neg h1, if_neg h2, List.length_cons]
        omega

theorem parse_list_page_state (cfg : CrawlConfig) (sf : List String → List String)
    (resp : PageResponse) (st : CrawlState) :
    (∀ v, v ∈ st.seen_list_pages → v ∈ (parse_list_page cfg sf resp st).1.seen_list_pages) ∧
    st.pages_crawled ≤ (parse_list_page cfg sf resp st).1.pages_crawled ∧
    st.items_scheduled ≤ (parse_list_page cfg sf resp st).1.items_scheduled ∧
    (st.items_scheduled ≤ cfg.max_items →
      (parse_list_page cfg sf resp st).1.items_scheduled ≤ cfg.max_items) ∧
    (∀ v, v ∈ st.seen_film_urls → v ∈ (parse_list_page cfg sf resp st).1.seen_film_urls) ∧
    resp.url ∈ (parse_list_page cfg sf resp st).1.seen_list_pages := by
  by_cases hseen : resp.url ∈ st.seen_list_pages
  · simp only [parse_list_page, if_pos hseen]
    exact ⟨fun v hv => hv, Nat.le_refl _, Nat.le_refl _, id, fun v hv => hv, hseen⟩
  · obtain ⟨e1, e2, e3, e4⟩ := scheduleFilms_state cfg
      (sampleTake cfg.sample_rate
        (if cfg.shuffle then sf resp.filmCandidates else resp.filmCandidates))
      ⟨resp.url :: st.seen_list_pages, st.seen_film_urls, st.pages_crawled + 1,
        st.items_scheduled⟩
    obtain ⟨isub, ind, ifr, imem⟩ := scheduleFilms_films cfg
      (sampleTake cfg.sample_rate
        (if cfg.shuffle then sf resp.filmCandidates else resp.filmCandidates))
      ⟨resp.url :: st.seen_list_pages, st.seen_film_urls, st.pages_crawled + 1,
        st.items_scheduled⟩
    by_cases hpg : cfg.max_pages < st.pages_crawled + 1
    · simp [parse_list_page, hseen, hpg]
      exact fun v hv => Or.inr hv
    · by_cases hpg2 : cfg.max_pages ≤ st.pages_crawled + 1
      · simp [parse_list_page, hseen, hpg, hpg2, e1, e2]
        exact ⟨fun v hv => Or.inr hv, e3, fun h => e4 h, fun v hv => isub v hv⟩
      · simp [parse_list_page, hseen, hpg, hpg2, e1, e2]
        exact ⟨fun v hv => Or.inr hv, e3, fun h => e4 h, fun v hv => isub v hv⟩

theorem parse_list_page_films (cfg : CrawlConfig) (sf : List String → List String)
    (resp : PageResponse) (st : CrawlState) :
    (parse_list_page cfg sf resp st).2.1.Nodup ∧
    (∀ v, v ∈ (parse_list_page cfg sf resp st).2.1 → v ∉ st.seen_film_urls) ∧
    (∀ v, v ∈ (parse_list_page cfg sf resp st).2.1 →
      v ∈ (parse_list_page cfg sf resp st).1.seen_film_urls) := by
  by_cases hseen : resp.url ∈ st.seen_list_pages
  · simp [parse_list_page, hseen]
  · obtain ⟨e1, e2, e3, e4⟩ := scheduleFilms_state cfg
      (sampleTake cfg.sample_rate
        (if cfg.shuffle then sf resp.filmCandidates else resp.filmCandidates))
      ⟨resp.url :: st.seen_list_pages, st.seen_film_urls, st.pages_crawled + 1,
        st.items_scheduled⟩
    obtain ⟨isub, ind, ifr, imem⟩ := scheduleFilms_films cfg
      (sampleTake cfg.sample_rate
        (if cfg.shuffle then sf resp.filmCandidates else resp.filmCandidates))
      ⟨resp.url :: st.seen_list_pages, st.seen_film_urls, st.pages_crawled + 1,
        st.items_scheduled⟩
    by_cases hpg : cfg.max_pages < st.pages_crawled + 1
    · simp [parse_list_page, hseen, hpg]
    · by_cases hpg2 : cfg.max_pages ≤ st.pages_crawled + 1
      · simp [parse_list_page, hseen, hpg, hpg2, e2]
        exact ⟨ind, fun v hv => ifr v hv, fun v hv => imem v hv⟩
      · simp [parse_list_page, hseen, hpg, hpg2, e2]
        exact ⟨ind, fun v hv => ifr v hv, fun v hv => imem v hv⟩

theorem parse_list_page_next (cfg : CrawlConfig) (sf : List String → List String)
    (resp : PageResponse) (st : CrawlState) :
    (parse_list_page cfg sf resp st).2.2.length ≤ 8 ∧
    (∀ v, v ∈ (parse_list_page cfg sf resp st).2.2 →
      v ∉ (parse_list_page cfg sf resp st).1.seen_list_pages) ∧
    (cfg.max_pages ≤ st.pages_crawled → (parse_list_page cfg sf resp st).2.2 = []) := by
  by_cases hseen : resp.url ∈ st.seen_list_pages
  · simp [parse_list_page, hseen]
  · obtain ⟨e1, e2, e3, e4⟩ := scheduleFilms_state cfg
      (sampleTake cfg.sample_rate
        (if cfg.shuffle then sf resp.filmCandidates else resp.filmCandidates))
      ⟨resp.url :: st.seen_list_pages, st.seen_film_urls, st.pages_crawled + 1,
        st.items_scheduled⟩
    by_cases hpg : cfg.max_pages < st.pages_crawled + 1
    · simp [parse_list_page, hseen, hpg]
    · by_cases hpg2 : cfg.max_pages ≤ st.pages_crawled + 1
      · simp [parse_list_page, hseen, hpg, hpg2, e2]
      · simp [parse_list_page, hseen, hpg, hpg2, e2]
        refine ⟨?_, ?_, ?_⟩
        · exact le_trans
            (dispatchNextLoop_length cfg _ _)
            (le_trans (List.length_take_le 8 _) (Nat.le_refl 8))
        · intro v hv
          exact dispatchNextLoop_unseen cfg _ _ v hv
        · intro h
          exact absurd (Nat.lt_succ_of_le h) hpg

theorem processRun_spec (cfg : CrawlConfig) (sf : List String → List String)
    (rs : List PageResponse) : ∀ st : CrawlState,
    (∀ v, v ∈ st.seen_film_urls → v ∈ (processRun cfg sf rs st).1.seen_film_urls) ∧
    (processRun cfg sf rs st).2.Nodup ∧
    (∀ v, v ∈ (processRun cfg sf rs st).2 → v ∉ st.seen_film_urls) ∧
    (∀ v, v ∈ (processRun cfg sf rs st).2 →
      v ∈ (processRun cfg sf rs st).1.seen_film_urls) ∧
    (st.items_scheduled ≤ cfg.max_items →
      (processRun cfg sf rs st).1.items_scheduled ≤ cfg.max_items) := by
  induction rs with
  | nil =>
    intro st
    simp [processRun]
  | cons r rest ih =>
    intro st
    obtain ⟨a1, a2, a3, a4, a5, a6⟩ := parse_list_page_state cfg sf r st
    obtain ⟨b1, b2, b3⟩ := parse_list_page_films cfg sf r st
    obtain ⟨rsub, rnd, rfr, rmem, rbound⟩ := ih (parse_list_page cfg sf r st).1
    simp only [processRun]
    refine ⟨?_, ?_, ?_, ?_, ?_⟩
    · intro v hv
      exact rsub v (a5 v hv)
    · refine List.nodup_append.mpr ⟨b1, rnd, ?_⟩
      intro v hv hv2
      exact rfr v hv2 (b3 v hv)
    · intro v hv
      rcases List.mem_append.mp hv with hv | hv
      · exact b2 v hv
      · intro hst
        exact rfr v hv (a5 v hst)
    · intro v hv
      rcases List.mem_append.mp hv with hv | hv
      · exact rsub v (b3 v hv)
      · exact rmem v hv
    · intro h
      exact rbound (a4 h)

/-! ## Rational readings of the decimal model -/

theorem PyFloat.ltB_iff (a b : PyFloat) : a.ltB b = true ↔ a.toRat < b.toRat := by
  unfold PyFloat.ltB PyFloat.toRat
  rw [div_lt_div_iff₀ (by positivity) (by positivity), decide_eq_true_eq]
  constructor
  · intro h
    exact_mod_cast h
  · intro h
    exact_mod_cast h

theorem PyFloat.trunc_toNat_eq_floor (n : Nat) (rate : PyFloat)
    (h : 0 < rate.toRat) :
    (PyFloat.trunc ⟨(n : Int) * rate.mant, rate.scale⟩).toNat =
      Nat.floor ((n : ℚ) * rate.toRat) := by
  have hq : (0 : ℚ) < (rate.mant : ℚ) := by
    unfold PyFloat.toRat at h
    rcases div_pos_iff.mp h with ⟨ha, _⟩ | ⟨_, hb⟩
    · exact ha
    · exact absurd hb (not_lt.mpr (by positivity))
  have hm : 0 < rate.mant := by exact_mod_cast hq
  obtain ⟨m, hm2⟩ : ∃ m : Nat, rate.mant = (m : Int) :=
    ⟨rate.mant.toNat, (Int.toNat_of_nonneg hm.le).symm⟩
  have tdiv_cast : ∀ a b : Nat, ((a : Int)).tdiv (b : Int) = ((a / b : Nat) : Int) :=
    fun a b => rfl
  unfold PyFloat.trunc PyFloat.toRat
  have h1 : ((n : Int) * rate.mant) = ((n * m : Nat) : Int) := by
    rw [hm2]; push_cast; ring
  have h2 : ((10 : Int) ^ rate.scale) = ((10 ^ rate.scale : Nat) : Int) := by push_cast; ring
  have h3 : (n : ℚ) * ((rate.mant : ℚ) / 10 ^ rate.scale) =
      ((n * m : Nat) : ℚ) / ((10 ^ rate.scale : Nat) : ℚ) := by
    rw [hm2]; push_cast; ring
  dsimp only
  rw [h1, h2, tdiv_cast, h3, Nat.floor_div_nat, Nat.floor_natCast, Int.toNat_natCast]

/-! ## Fixtures for concrete scenarios -/

/-- Default budgets of the source (`MAX_ITEMS=250`, `MAX_PAGES=12`),
shuffle off, `SAMPLE_RATE=1.0`. -/
def cfgFull : CrawlConfig := ⟨250, 12, false, ⟨1, 0⟩⟩

/-- Same budgets with `SAMPLE_RATE=0.5`. -/
def cfgHalf : CrawlConfig := ⟨250, 12, false, ⟨5, 1⟩⟩

/-- A listing page with ten distinct candidate film URLs and no pagination
candidates. -/
def respTen : PageResponse :=
  ⟨"L1", ["f1", "f2", "f3", "f4", "f5", "f6", "f7", "f8", "f9", "f10"], []⟩

/-- A listing page whose film link also matches the pagination heuristic
(`/film/top_gun/456` contains `/top` and ends in a numeric path segment),
so the same URL is offered both as a film candidate and as a next-listing
candidate. -/
def respLoop : PageResponse :=
  ⟨"https://s/liste/1", ["https://s/film/top_gun/456"], ["https://s/film/top_gun/456"]⟩

/-- The listing-parse response for the film URL dispatched by `respLoop`. -/
def respLoop2 : PageResponse := ⟨"https://s/film/top_gun/456", [], []⟩

/-! ## Claim theorems: crawl controller -/

/-- C1: on every listing-page step, `items_scheduled` stays bounded by
`max_items` and both counters are monotonically non-decreasing; over any
run from the initial state, `items_scheduled` never exceeds `max_items`. -/
theorem spider_counters_monotone_bounded :
    (∀ (cfg : CrawlConfig) (sf : List String → List String) (resp : PageResponse)
        (st : CrawlState), st.items_scheduled ≤ cfg.max_items →
      (parse_list_page cfg sf resp st).1.items_scheduled ≤ cfg.max_items ∧
      st.items_scheduled ≤ (parse_list_page cfg sf resp st).1.items_scheduled ∧
      st.pages_crawled ≤ (parse_list_page cfg sf resp st).1.pages_crawled) ∧
    (∀ (cfg : CrawlConfig) (sf : List String → List String) (rs : List PageResponse),
      (processRun cfg sf rs initState).1.items_scheduled ≤ cfg.max_items) := by
  constructor
  · intro cfg sf resp st h
    obtain ⟨a1, a2, a3, a4, a5, a6⟩ := parse_list_page_state cfg sf resp st
    exact ⟨a4 h, a3, a2⟩
  · intro cfg sf rs
    exact (processRun_spec cfg sf rs initState).2.2.2.2 (Nat.zero_le _)

theorem spider_counters_monotone_bounded_witness :
    initState.items_scheduled ≤ cfgFull.max_items ∧
    ((parse_list_page cfgFull id respTen initState).1.items_scheduled ≤ cfgFull.max_items ∧
      initState.items_scheduled ≤
        (parse_list_page cfgFull id respTen initState).1.items_scheduled ∧
      initState.pages_crawled ≤
        (parse_list_page cfgFull id respTen initState).1.pages_crawled) :=
  ⟨by decide, spider_counters_monotone_bounded.1 cfgFull id respTen initState (by decide)⟩

/-- C2: when a listing page is processed with `pages_crawled` already at or
above `max_pages`, no next-listing fetch is dispatched from it; the
next-listing dispatch of any page has at most 8 entries, none of which is
already in `seen_list_pages` at dispatch time (the state after the page's
own URL was recorded). -/
theorem spider_pagination_gate_fanout :
    ∀ (cfg : CrawlConfig) (sf : List String → List String) (resp : PageResponse)
      (st : CrawlState),
      (cfg.max_pages ≤ st.pages_crawled → (parse_list_page cfg sf resp st).2.2 = []) ∧
      (parse_list_page cfg sf resp st).2.2.length ≤ 8 ∧
      (∀ v, v ∈ (parse_list_page cfg sf resp st).2.2 →
        v ∉ (parse_list_page cfg sf resp st).1.seen_list_pages) := by
  intro cfg sf resp st
  obtain ⟨n1, n2, n3⟩ := parse_list_page_next cfg sf resp st
  exact ⟨n3, n1, n2⟩

theorem spider_pagination_gate_fanout_witness :
    (parse_list_page cfgFull id respTen ⟨[], [], 12, 0⟩).2.2 = [] ∧
    (parse_list_page cfgFull id respLoop initState).2.2.length ≤ 8 ∧
    "https://s/film/top_gun/456" ∉
      (parse_list_page cfgFull id respLoop initState).1.seen_list_pages :=
  ⟨(spider_pagination_gate_fanout cfgFull id respTen ⟨[], [], 12, 0⟩).1 (by decide),
   (spider_pagination_gate_fanout cfgFull id respLoop initState).2.1,
   (spider_pagination_gate_fanout cfgFull id respLoop initState).2.2
     "https://s/film/top_gun/456" (by decide)⟩

/-- C5: with `0 < sample_rate < 1` the candidate film list is truncated to
its first `max(1, floor(len * sample_rate))` entries; concretely, with
`sample_rate = 0.5`, shuffle off and ten distinct candidates, exactly the
first five are scheduled. -/
theorem spider_sampling_prefix_take :
    (∀ (rate : PyFloat) (l : List String),
        0 < rate.toRat → rate.toRat < 1 →
        sampleTake rate l =
          l.take (max 1 (Nat.floor ((l.length : ℚ) * rate.toRat)))) ∧
    (parse_list_page cfgHalf id respTen initState).2.1 = ["f1", "f2", "f3", "f4", "f5"] ∧
    (parse_list_page cfgHalf id respTen initState).1.items_scheduled = 5 := by
  refine ⟨?_, by decide, by decide⟩
  intro rate l h1 h2
  unfold sampleTake
  rw [if_pos, PyFloat.trunc_toNat_eq_floor l.length rate h1]
  rw [Bool.and_eq_true, PyFloat.ltB_iff, PyFloat.ltB_iff]
  constructor
  · simpa [PyFloat.toRat] using h1
  · simpa [PyFloat.toRat] using h2

theorem spider_sampling_prefix_take_witness :
    (0 < PyFloat.toRat ⟨5, 1⟩ ∧ PyFloat.toRat ⟨5, 1⟩ < 1) ∧
    sampleTake ⟨5, 1⟩ respTen.filmCandidates =
      respTen.filmCandidates.take
        (max 1 (Nat.floor ((respTen.filmCandidates.length : ℚ) * PyFloat.toRat ⟨5, 1⟩))) :=
  ⟨⟨by norm_num [PyFloat.toRat], by norm_num [PyFloat.toRat]⟩,
   spider_sampling_prefix_take.1 ⟨5, 1⟩ respTen.filmCandidates
     (by norm_num [PyFloat.toRat]) (by norm_num [PyFloat.toRat])⟩

/-- C6: a listing-page response whose URL is already in `seen_list_pages`
is a no-op (state unchanged, nothing dispatched); in particular processing
the same listing URL a second time within one run changes nothing. -/
theorem spider_listing_idempotent :
    ∀ (cfg : CrawlConfig) (sf : List String → List String) (resp : PageResponse)
      (st : CrawlState),
      (resp.url ∈ st.seen_list_pages → parse_list_page cfg sf resp st = (st, [], [])) ∧
      (∀ resp2 : PageResponse, resp2.url = resp.url →
        parse_list_page cfg sf resp2 (parse_list_page cfg sf resp st).1 =
          ((parse_list_page cfg sf resp st).1, [], [])) := by
  intro cfg sf resp st
  constructor
  · intro h
    simp [parse_list_page, h]
  · intro resp2 h2
    have hm : resp2.url ∈ (parse_list_page cfg sf resp st).1.seen_list_pages := by
      rw [h2]
      exact (parse_list_page_state cfg sf resp st).2.2.2.2.2
    generalize hst : (parse_list_page cfg sf resp st).1 = st1 at hm ⊢
    simp [parse_list_page, hm]

theorem spider_listing_idempotent_witness :
    parse_list_page cfgFull id respTen ⟨["L1"], [], 1, 0⟩ =
      ((⟨["L1"], [], 1, 0⟩ : CrawlState), [], []) ∧
    parse_list_page cfgFull id respTen (parse_list_page cfgFull id respTen initState).1 =
      ((parse_list_page cfgFull id respTen initState).1, [], []) :=
  ⟨(spider_listing_idempotent cfgFull id respTen ⟨["L1"], [], 1, 0⟩).1 (by decide),
   (spider_listing_idempotent cfgFull id respTen initState).2 respTen rfl⟩

/-- C9 (amended): each of `seen_list_pages` and `seen_film_urls` only ever
grows during a step (URLs are never removed); the code does not, however,
keep the two sets disjoint. -/
theorem spider_seen_sets_grow :
    ∀ (cfg : CrawlConfig) (sf : List String → List String) (resp : PageResponse)
      (st : CrawlState),
      (∀ v, v ∈ st.seen_list_pages →
        v ∈ (parse_list_page cfg sf resp st).1.seen_list_pages) ∧
      (∀ v, v ∈ st.seen_film_urls →
        v ∈ (parse_list_page cfg sf resp st).1.seen_film_urls) :=
  fun cfg sf resp st =>
    ⟨(parse_list_page_state cfg sf resp st).1,
     (parse_list_page_state cfg sf resp st).2.2.2.2.1⟩

theorem spider_seen_sets_grow_witness :
    ("L0" ∈ (⟨["L0"], ["F0"], 1, 1⟩ : CrawlState).seen_list_pages ∧
      "F0" ∈ (⟨["L0"], ["F0"], 1, 1⟩ : CrawlState).seen_film_urls) ∧
    "L0" ∈ (parse_list_page cfgFull id respTen ⟨["L0"], ["F0"], 1, 1⟩).1.seen_list_pages ∧
    "F0" ∈ (parse_list_page cfgFull id respTen ⟨["L0"], ["F0"], 1, 1⟩).1.seen_film_urls :=
  ⟨⟨by decide, by decide⟩,
   (spider_seen_sets_grow cfgFull id respTen ⟨["L0"], ["F0"], 1, 1⟩).1 "L0" (by decide),
   (spider_seen_sets_grow cfgFull id respTen ⟨["L0"], ["F0"], 1, 1⟩).2 "F0" (by decide)⟩

/-- C9 (counterexample): the two seen-sets are not disjoint. A film URL
that also matches the pagination heuristic is scheduled as a film (entering
`seen_film_urls`), dispatched as a next listing page (first conjunct), and
on processing that listing response its URL enters `seen_list_pages`: the
same URL then sits in both sets. -/
theorem spider_seen_sets_overlap :
    (parse_list_page cfgFull id respLoop initState).2.2 = ["https://s/film/top_gun/456"] ∧
    "https://s/film/top_gun/456" ∈
      (processRun cfgFull id [respLoop, respLoop2] initState).1.seen_list_pages ∧
    "https://s/film/top_gun/456" ∈
      (processRun cfgFull id [respLoop, respLoop2] initState).1.seen_film_urls := by
  refine ⟨by decide, by decide, by decide⟩

/-! ## `parse_film` url preservation -/

theorem extractFromMovie_url (m : Json) (it : Item) :
    (extractFromMovie m it).url = it.url := by
  unfold extractFromMovie
  dsimp only
  repeat' split
  all_goals rfl

theorem fallbackStep_url (it : Item) (t : Option String) :
    (fallbackStep it t).url = it.url := by
  unfold fallbackStep
  dsimp only
  repeat' split
  all_goals rfl

theorem parse_film_url (blocks : List (Option Json)) (su ru : String)
    (a b c : Option String) : (parse_film blocks su ru a b c).url = ru := by
  unfold parse_film
  dsimp only
  repeat' split
  all_goals simp [extractFromMovie_url, fallbackStep_url]

/-- C8: within one run all dispatched film URLs are pairwise distinct
(uniqueness enforced by `seen_film_urls` at scheduling time: every
dispatched URL is in the set afterwards), and the one record a film
response yields carries that response's URL. -/
theorem spider_emitted_urls_unique :
    (∀ (cfg : CrawlConfig) (sf : List String → List String) (rs : List PageResponse),
      (processRun cfg sf rs initState).2.Nodup ∧
      ∀ v, v ∈ (processRun cfg sf rs initState).2 →
        v ∈ (processRun cfg sf rs initState).1.seen_film_urls) ∧
    (∀ (blocks : List (Option Json)) (su ru : String) (a b c : Option String),
      (parse_film blocks su ru a b c).url = ru) := by
  constructor
  · intro cfg sf rs
    exact ⟨(processRun_spec cfg sf rs initState).2.1,
           (processRun_spec cfg sf rs initState).2.2.2.1⟩
  · exact parse_film_url

theorem spider_emitted_urls_unique_witness :
    "https://s/film/top_gun/456" ∈ (processRun cfgFull id [respLoop] initState).2 ∧
    "https://s/film/top_gun/456" ∈
      (processRun cfgFull id [respLoop] initState).1.seen_film_urls :=
  ⟨by decide,
   (spider_emitted_urls_unique.1 cfgFull id [respLoop]).2
     "https://s/film/top_gun/456" (by decide)⟩

/-! ## Duration-parser lemmas -/

theorem pyIsWs_of_digit (c : Char) (h : isDigitC c = true) : pyIsWs c = false := by
  simp [isDigitC] at h
  simp [pyIsWs]
  omega

theorem dropWhile_eq_self_of (p : Char → Bool) (l : List Char)
    (h : ∀ c, l.head? = some c → p c = false) : l.dropWhile p = l := by
  cases l with
  | nil => rfl
  | cons c t => simp [List.dropWhile_cons, h c rfl]

theorem pyStripL_eq_self (l : List Char) (h : ∀ c ∈ l, pyIsWs c = false) :
    pyStripL l = l := by
  unfold pyStripL
  rw [dropWhile_eq_self_of _ l fun c hc => h c (by
    cases l with
    | nil => simp at hc
    | cons a t => exact (Option.some.inj hc) ▸ List.mem_cons_self a t)]
  rw [dropWhile_eq_self_of _ l.reverse fun c hc => h c (by
    have := List.mem_of_mem_head? hc
    exact List.mem_reverse.mp this)]
  exact List.reverse_reverse l

theorem takeDigits_append (d r : List Char) (hd : ∀ c ∈ d, isDigitC c = true)
    (hr : ∀ c, r.head? = some c → isDigitC c = false) :
    takeDigits (d ++ r) = (d, r) := by
  induction d with
  | nil =>
    cases r with
    | nil => rfl
    | cons c t => simp [takeDigits, hr c rfl]
  | cons c d ih =>
    have h1 : isDigitC c = true := hd c (List.mem_cons_self c d)
    have h2 := ih (fun x hx => hd x (List.mem_cons_of_mem c hx))
    simp [takeDigits, h1, h2]

theorem numGroup_hit (mark : Char) (cs d rest : List Char)
    (ht : takeDigits cs = (d, mark :: rest)) (hne : d ≠ []) :
    numGroup mark cs = (some (digitsVal d), rest) := by
  obtain ⟨c0, d2, rfl⟩ : ∃ c0 d2, d = c0 :: d2 := by
    cases d with
    | nil => exact absurd rfl hne
    | cons a b => exact ⟨a, b, rfl⟩
  simp [numGroup, ht]

theorem duration_family (dh dm : List Char) (h1 : dh ≠ []) (h2 : dm ≠ [])
    (hd : ∀ c ∈ dh, isDigitC c = true) (hm : ∀ c ∈ dm, isDigitC c = true) :
    iso8601_duration_to_minutes
        (Json.str ⟨'P' :: 'T' :: (dh ++ 'H' :: (dm ++ ['M']))⟩) =
      if 0 < digitsVal dh * 60 + digitsVal dm then
        some (digitsVal dh * 60 + digitsVal dm)
      else none := by
  have hws : ∀ c ∈ 'P' :: 'T' :: (dh ++ 'H' :: (dm ++ ['M'])), pyIsWs c = false := by
    intro c hc
    rcases List.mem_cons.mp hc with rfl | hc
    · decide
    rcases List.mem_cons.mp hc with rfl | hc
    · decide
    rcases List.mem_append.mp hc with hc | hc
    · exact pyIsWs_of_digit c (hd c hc)
    rcases List.mem_cons.mp hc with rfl | hc
    · decide
    rcases List.mem_append.mp hc with hc | hc
    · exact pyIsWs_of_digit c (hm c hc)
    · rcases List.mem_singleton.mp hc with rfl
      decide
  have hne : (⟨'P' :: 'T' :: (dh ++ 'H' :: (dm ++ ['M']))⟩ : String) ≠ "" := by
    intro hcon
    have := congrArg String.data hcon
    simp at this
  have htd1 : takeDigits (dh ++ 'H' :: (dm ++ ['M'])) = (dh, 'H' :: (dm ++ ['M'])) :=
    takeDigits_append dh _ hd (fun c hc => by
      cases Option.some.inj hc
      decide)
  have htd2 : takeDigits (dm ++ ['M']) = (dm, ['M']) :=
    takeDigits_append dm _ hm (fun c hc => by
      cases Option.some.inj hc
      decide)
  have hg1 : numGroup 'H' (dh ++ 'H' :: (dm ++ ['M'])) =
      (some (digitsVal dh), dm ++ ['M']) := numGroup_hit 'H' _ dh _ htd1 h1
  have hg2 : numGroup 'M' (dm ++ ['M']) = (some (digitsVal dm), []) := by
    have ht : takeDigits (dm ++ ['M']) = (dm, 'M' :: []) := htd2
    exact numGroup_hit 'M' _ dm [] ht h2
  have hcore : isoCore (dh ++ 'H' :: (dm ++ ['M'])) =
      some (digitsVal dh * 60 + digitsVal dm) := by
    simp [isoCore, hg1, hg2]
  have hiso : isoMatch ('P' :: 'T' :: (dh ++ 'H' :: (dm ++ ['M']))) =
      isoCore (dh ++ 'H' :: (dm ++ ['M'])) := rfl
  have hstr : pyStripL (String.data ⟨'P' :: 'T' :: (dh ++ 'H' :: (dm ++ ['M']))⟩) =
      'P' :: 'T' :: (dh ++ 'H' :: (dm ++ ['M'])) := pyStripL_eq_self _ hws
  simp only [iso8601_duration_to_minutes]
  rw [if_neg hne, hstr, hiso, hcore]

/-- Modelled from the spec: the claim's "exact form `PT` followed by an
optional `<digits>H` and an optional `<digits>M`", with nothing else and no
whitespace allowance — the anchored regex shape applied to the raw string. -/
def specIsExactForm (s : String) : Bool := (isoMatch s.data).isSome

/-! ## Claim theorems: duration parser -/

/-- C3 (amended): the duration parser returns `hours*60 + minutes` for
every input whose WHITESPACE-STRIPPED form is exactly
`PT(<digits>H)?(<digits>M)?` with a positive total, and `None` for every
other input: any input whose stripped form is not of the exact form, any
zero total, and any `None`, empty or non-string input. The claim's
examples all hold as stated. -/
theorem duration_parser_spec :
    (∀ dh dm : List Char, dh ≠ [] → dm ≠ [] →
      (∀ c ∈ dh, isDigitC c = true) → (∀ c ∈ dm, isDigitC c = true) →
      iso8601_duration_to_minutes
          (Json.str ⟨'P' :: 'T' :: (dh ++ 'H' :: (dm ++ ['M']))⟩) =
        if 0 < digitsVal dh * 60 + digitsVal dm then
          some (digitsVal dh * 60 + digitsVal dm)
        else none) ∧
    (∀ s t, iso8601_duration_to_minutes (Json.str s) = some t → 0 < t) ∧
    (∀ s, specIsExactForm (pyStrip s) = false →
      iso8601_duration_to_minutes (Json.str s) = none) ∧
    iso8601_duration_to_minutes (Json.str "PT1H30M") = some 90 ∧
    iso8601_duration_to_minutes (Json.str "PT45M") = some 45 ∧
    iso8601_duration_to_minutes (Json.str "PT2H") = some 120 ∧
    iso8601_duration_to_minutes (Json.str "PT0H0M") = none ∧
    iso8601_duration_to_minutes (Json.str "PT") = none ∧
    iso8601_duration_to_minutes (Json.str "garbage") = none ∧
    iso8601_duration_to_minutes (Json.str "") = none ∧
    iso8601_duration_to_minutes Json.null = none ∧
    iso8601_duration_to_minutes (Json.num ⟨90, 0⟩) = none ∧
    iso8601_duration_to_minutes (Json.str "  PT45M  ") = some 45 := by
  refine ⟨duration_family, ?_, ?_, by decide, by decide, by decide, by decide,
    by decide, by decide, by decide, by decide, by decide, by decide⟩
  · intro s t h
    simp only [iso8601_duration_to_minutes] at h
    by_cases he : s = ""
    · simp [he] at h
    · rw [if_neg he] at h
      cases hm : isoMatch (pyStripL s.data) with
      | none => rw [hm] at h; exact absurd h (by simp)
      | some total =>
        rw [hm] at h
        dsimp only at h
        by_cases ht : 0 < total
        · rw [if_pos ht] at h
          cases h
          exact ht
        · rw [if_neg ht] at h
          exact absurd h (by simp)
  · intro s h
    simp only [iso8601_duration_to_minutes]
    by_cases he : s = ""
    · simp [he]
    · rw [if_neg he]
      cases hm : isoMatch (pyStripL s.data) with
      | none => rfl
      | some total =>
        exfalso
        have h2 : specIsExactForm (pyStrip s) = true := by
          unfold specIsExactForm pyStrip
          simp [hm]
        rw [h2] at h
        exact absurd h (by simp)

/-- C3 (counterexample): a padded string is not of the claim's exact form,
yet the parser accepts it — the code strips whitespace before matching,
contradicting "returns absent for every string not of that exact form". -/
theorem duration_parser_accepts_padded :
    specIsExactForm " PT45M" = false ∧
    iso8601_duration_to_minutes (Json.str " PT45M") = some 45 :=
  ⟨by decide, by decide⟩

theorem duration_parser_spec_witness :
    ((['1'] : List Char) ≠ [] ∧ (['3', '0'] : List Char) ≠ [] ∧
      (∀ c ∈ (['1'] : List Char), isDigitC c = true) ∧
      (∀ c ∈ (['3', '0'] : List Char), isDigitC c = true)) ∧
    iso8601_duration_to_minutes
        (Json.str ⟨'P' :: 'T' ::
          ((['1'] : List Char) ++ 'H' :: ((['3', '0'] : List Char) ++ ['M']))⟩) =
      if 0 < digitsVal ['1'] * 60 + digitsVal ['3', '0'] then
        some (digitsVal ['1'] * 60 + digitsVal ['3', '0'])
      else none :=
  ⟨⟨by decide, by decide, by decide, by decide⟩,
   duration_parser_spec.1 ['1'] ['3', '0'] (by decide) (by decide) (by decide) (by decide)⟩

/-! ## Title-cleaning lemmas -/

theorem yearAtEnd_le (cs : List Char) (y : Nat) (t : List Char)
    (h : yearAtEnd cs = some (y, t)) : y ≤ 9999 := by
  unfold yearAtEnd at h
  split at h
  · rename_i d1 d2 d3 d4 r2 _
    split at h
    · rename_i hd
      simp only [Option.some.injEq, Prod.mk.injEq] at h
      obtain ⟨rfl, -⟩ := h
      simp only [Bool.and_eq_true, isDigitC, decide_eq_true_eq] at hd
      unfold digitVal
      omega
    · exact absurd h (by simp)
  · exact absurd h (by simp)

theorem clean_year_le (s : String) (y : Nat)
    (h : (clean_title_and_year (some s)).2 = some y) : y ≤ 9999 := by
  have heq : clean_title_and_year (some s) =
      if s = "" then (none, none) else cleanCore s := rfl
  rw [heq] at h
  by_cases he : s = ""
  · rw [if_pos he] at h
    exact absurd h (by simp)
  · rw [if_neg he] at h
    unfold cleanCore at h
    rcases hy : yearAtEnd (stripTitleTags (pyStripL (collapseWs s.data)))
      with _ | ⟨y2, t2⟩
    · rw [hy] at h
      exact absurd h (by simp)
    · rw [hy] at h
      dsimp only at h
      cases h
      exact yearAtEnd_le _ _ _ hy

/-! ## Claim theorems: title cleaning -/

/-- C4 (amended): the title-cleaning routine collapses internal whitespace,
strips a trailing site suffix `- SensCritique`, a trailing `- Film` suffix
and a trailing `- Série` suffix (the French word — the ASCII `- Series` is
not stripped), all case-insensitively and in that order; then a trailing
parenthesised four-digit year is extracted and removed. The extracted year
always fits in four digits. -/
theorem title_cleaning_spec :
    clean_title_and_year (some "Inception (2010) - SensCritique") =
      (some "Inception", some 2010) ∧
    clean_title_and_year (some "Amélie - Film") = (some "Amélie", none) ∧
    clean_title_and_year (some "  Blade   Runner  ") = (some "Blade Runner", none) ∧
    clean_title_and_year (some "Dark - Série") = (some "Dark", none) ∧
    clean_title_and_year (some "Dark - SÉRIE") = (some "Dark", none) ∧
    clean_title_and_year (some "inception (2010) - SENSCRITIQUE") =
      (some "inception", some 2010) ∧
    clean_title_and_year (some "X - FILM") = (some "X", none) ∧
    clean_title_and_year (some "Titanic (1997)") = (some "Titanic", some 1997) ∧
    clean_title_and_year (some "x - Série - Film") = (some "x", none) ∧
    (∀ s y, (clean_title_and_year (some s)).2 = some y → y ≤ 9999) :=
  ⟨by decide, by decide, by decide, by decide, by decide, by decide, by decide,
   by decide, by decide, clean_year_le⟩

/-- C4 (counterexample): the claim's trailing `- Series` suffix is not
stripped by the code — the third substitution targets the French
`- Série` — so `"Dark - Series"` keeps its suffix instead of cleaning to
`"Dark"`. -/
theorem title_cleaning_series_not_stripped :
    clean_title_and_year (some "Dark - Series") = (some "Dark - Series", none) ∧
    clean_title_and_year (some "Dark - Series") ≠ (some "Dark", none) :=
  ⟨by decide, by decide⟩

theorem title_cleaning_spec_witness :
    (clean_title_and_year (some "Titanic (1997)")).2 = some 1997 ∧ 1997 ≤ 9999 :=
  ⟨by decide,
   title_cleaning_spec.2.2.2.2.2.2.2.2.2 "Titanic (1997)" 1997 (by decide)⟩

/-- C10: a truthy input always yields a string title (possibly empty):
whitespace-only input and input fully consumed by suffix stripping give
the empty string, while `None` is returned as the title only for a falsy
input (`None` or `""`). -/
theorem title_cleaning_empty_result :
    (∀ s : String, s ≠ "" → (clean_title_and_year (some s)).1 ≠ none) ∧
    clean_title_and_year (some "   ") = (some "", none) ∧
    clean_title_and_year (some "- Film") = (some "", none) ∧
    clean_title_and_year none = (none, none) ∧
    clean_title_and_year (some "") = (none, none) := by
  refine ⟨?_, by decide, by decide, by decide, by decide⟩
  intro s hs
  have heq : clean_title_and_year (some s) =
      if s = "" then (none, none) else cleanCore s := rfl
  rw [heq, if_neg hs]
  unfold cleanCore
  rcases hy : yearAtEnd (stripTitleTags (pyStripL (collapseWs s.data)))
    with _ | ⟨y2, t2⟩ <;> simp [hy]

theorem title_cleaning_empty_result_witness :
    ("   " : String) ≠ "" ∧ (clean_title_and_year (some "   ")).1 ≠ none :=
  ⟨by decide, title_cleaning_empty_result.1 "   " (by decide)⟩

/-! ## Extractor fixtures (the structured-data example of the spec and
wrongly-typed variants of it) -/

def duneMovie : Json := .objOf [
  ("@type", .str "Movie"),
  ("name", .str "Dune (2021)"),
  ("duration", .str "PT2H35M"),
  ("genre", .str "Science Fiction"),
  ("director", .arrOf [.objOf [("name", .str "Denis Villeneuve")]]),
  ("aggregateRating", .objOf [("ratingValue", .str "7.8"), ("ratingCount", .str "1200")])]

/-- The record the spec expects for `duneMovie` (rating `7.8` is the
decimal `78/10^1`). -/
def duneItem : Item :=
  { url := "https://s/film/dune", title := some "Dune", full_title := some "Dune (2021)",
    year := some 2021, genres := ["Science Fiction"], duration_min := some 155,
    directors := ["Denis Villeneuve"], rating := some ⟨78, 1⟩, rating_count := some 1200 }

/-- `duneMovie` with a non-string `name`. -/
def duneBadName : Json := .objOf [
  ("@type", .str "Movie"),
  ("name", .num ⟨5, 0⟩),
  ("duration", .str "PT2H35M"),
  ("genre", .str "Science Fiction"),
  ("director", .arrOf [.objOf [("name", .str "Denis Villeneuve")]]),
  ("aggregateRating", .objOf [("ratingValue", .str "7.8"), ("ratingCount", .str "1200")])]

/-- `duneMovie` with a non-dict `aggregateRating`. -/
def duneBadRating : Json := .objOf [
  ("@type", .str "Movie"),
  ("name", .str "Dune (2021)"),
  ("duration", .str "PT2H35M"),
  ("genre", .str "Science Fiction"),
  ("director", .arrOf [.objOf [("name", .str "Denis Villeneuve")]]),
  ("aggregateRating", .str "unparseable")]

/-- `duneMovie` with a non-numeric `ratingValue` (a dict, on which
`float(...)` raises) and a good `ratingCount`. -/
def duneBadRV : Json := .objOf [
  ("@type", .str "Movie"),
  ("name", .str "Dune (2021)"),
  ("duration", .str "PT2H35M"),
  ("genre", .str "Science Fiction"),
  ("director", .arrOf [.objOf [("name", .str "Denis Villeneuve")]]),
  ("aggregateRating", .objOf [("ratingValue", .objOf [("v", .num ⟨78, 1⟩)]),
                              ("ratingCount", .str "1200")])]

/-- `duneMovie` with a malformed ISO-8601 duration. -/
def duneBadDur : Json := .objOf [
  ("@type", .str "Movie"),
  ("name", .str "Dune (2021)"),
  ("duration", .str "2h35"),
  ("genre", .str "Science Fiction"),
  ("director", .arrOf [.objOf [("name", .str "Denis Villeneuve")]]),
  ("aggregateRating", .objOf [("ratingValue", .str "7.8"), ("ratingCount", .str "1200")])]

/-- `duneMovie` with a non-numeric `ratingCount` (on which `int(...)`
raises) and a good `ratingValue`. -/
def duneBadRC : Json := .objOf [
  ("@type", .str "Movie"),
  ("name", .str "Dune (2021)"),
  ("duration", .str "PT2H35M"),
  ("genre", .str "Science Fiction"),
  ("director", .arrOf [.objOf [("name", .str "Denis Villeneuve")]]),
  ("aggregateRating", .objOf [("ratingValue", .str "7.8"), ("ratingCount", .str "12.5x")])]

/-! ## Claim theorem: extractor safety -/

/-- C7: the film-page extractor is total — for every sequence of
structured-data blocks (including failed `json.loads` results, modelled as
`none`) and any seed it yields exactly one record carrying the response's
URL — and each unparseable field degrades to absent independently: a
missing/malformed block or non-Movie object yields the bare record, a
non-string name loses only title/full-title/year, a non-dict
`aggregateRating` loses only the two rating fields, a non-numeric
`ratingValue` (resp. `ratingCount`) loses only that one field, and a
malformed duration loses only `duration_min`, each time leaving every
other extracted field identical to the fully-valid extraction. -/
theorem extractor_total_independent_fields :
    (∀ (blocks : List (Option Json)) (su ru : String) (a b c : Option String),
      (parse_film blocks su ru a b c).url = ru) ∧
    parse_film [some duneMovie] "https://s/film/dune" "https://s/film/dune"
      none none none = duneItem ∧
    parse_film [none] "u" "r" none none none = { url := "r" } ∧
    parse_film [some (.objOf [("@type", .str "Person"), ("name", .str "X")])]
      "u" "r" none none none = { url := "r" } ∧
    parse_film [some duneBadName] "https://s/film/dune" "https://s/film/dune"
      none none none = { duneItem with title := none, full_title := none, year := none } ∧
    parse_film [some duneBadRating] "https://s/film/dune" "https://s/film/dune"
      none none none = { duneItem with rating := none, rating_count := none } ∧
    parse_film [some duneBadRV] "https://s/film/dune" "https://s/film/dune"
      none none none = { duneItem with rating := none } ∧
    parse_film [some duneBadRC] "https://s/film/dune" "https://s/film/dune"
      none none none = { duneItem with rating_count := none } ∧
    parse_film [some duneBadDur] "https://s/film/dune" "https://s/film/dune"
      none none none = { duneItem with duration_min := none } :=
  ⟨parse_film_url, rfl, rfl, rfl, rfl, rfl, rfl, rfl, rfl⟩

end CineFinder
